import Mathlib

/-!
Verification of the Tachion incremental multi-source collection engine.

This file shallowly embeds the per-source collection drivers of the repository
(`src/core/apis/biapi.py`, `src/core/apis/tdapi.py`, `src/core/oaapi.py`,
`src/core/frapi.py`, `src/core/yfapi.py`) and settles the frozen claims about
them.  Records carry their timestamp as a natural number: the on-disk
"datetime" strings use one fixed format per source ("%Y-%m-%d %H:%M:%S" or
"%Y-%m-%d"), on which lexicographic string order and chronological order
coincide, so a Nat key faithfully models both the comparisons and the equality
tests performed on those strings.  Network calls are modelled by an oracle
mapping the index of the upstream call to the response the driver observes;
sleeping (rate limiting) does not change the data flow and is embedded
separately with an explicit clock (`rlAcquire`) for the claim that is about
time.
-/

namespace Tachion

/-- One observation record as persisted by every driver: the `datetime` key
(modelled as a Nat, see the file comment) plus the rest of the JSON object
(open/high/low/close/volume or value), abstracted into one `payload` field
that only serves to distinguish records with equal timestamps. -/
structure Obs where
  datetime : Nat
  payload : Nat
deriving DecidableEq

/-- The normalized response every `*API` wrapper hands to its driver: a dict
with "status" either "error" (with a "message") or "ok" (with "values"). -/
inductive Resp where
  | error (msg : String)
  | ok (values : List Obs)
deriving DecidableEq

/-- Whether `pat` matches at the head of `chars`. -/
def charsPrefixMatch : List Char → List Char → Bool
  | [], _ => true
  | _ :: _, [] => false
  | p :: ps, c :: cs => p == c && charsPrefixMatch ps cs

/-- Whether `pat` occurs contiguously inside `chars`. -/
def charsContain (pat : List Char) : List Char → Bool
  | [] => charsPrefixMatch pat []
  | c :: rest => charsPrefixMatch pat (c :: rest) || charsContain pat rest

/-- Python's substring test `pat in s`. -/
def containsSubstr (s pat : String) : Bool :=
  charsContain pat.data s.data

/-- The quota test of tdapi.py lines 65 and 128:
`"run out of API credits" in msg`. -/
def isQuotaMsg (msg : String) : Bool :=
  containsSubstr msg "run out of API credits"

/-- Whether a response is the quota-exhausted error that makes the TwelveData
retry loop sleep and retry. -/
def respIsQuota : Resp → Bool
  | Resp.error msg => isQuotaMsg msg
  | Resp.ok _ => false

/-- The sort key comparison used by `details.sort(key=lambda x: x["datetime"])`
in biapi.py line 102 and oaapi.py line 103. -/
def dtle (a b : Obs) : Prop := a.datetime ≤ b.datetime

instance : DecidableRel dtle := fun a b => Nat.decLe a.datetime b.datetime

instance : IsTotal Obs dtle := ⟨fun a b => Nat.le_total a.datetime b.datetime⟩

instance : IsTrans Obs dtle := ⟨fun _ _ _ h1 h2 => Nat.le_trans h1 h2⟩

/-- Python's `list.sort(key=...)` is a stable ascending sort; a stable
insertion sort produces the identical list. -/
def sortByDatetime (l : List Obs) : List Obs := List.insertionSort dtle l

/-- The dedup loop of biapi.py lines 103-108 and oaapi.py lines 104-109:
walk the list keeping the first record of each `datetime` seen so far. -/
def dedupFirstGo (seen : List Nat) : List Obs → List Obs
  | [] => []
  | d :: rest =>
    if d.datetime ∈ seen then dedupFirstGo seen rest
    else d :: dedupFirstGo (d.datetime :: seen) rest

/-- Deduplication starting from an empty `seen` set. -/
def dedupFirst (l : List Obs) : List Obs := dedupFirstGo [] l

/-- The FRESH-mode finalize-and-write of biapi.py lines 100-112 and oaapi.py
lines 101-113: if no details were collected nothing is written (`none`),
otherwise the sorted, first-seen-deduplicated list is written. -/
def sortDedupWrite (details : List Obs) : Option (List Obs) :=
  if details.isEmpty then none else some (dedupFirst (sortByDatetime details))

/-- FRESH-mode pagination loop of `call_specific_binance` (biapi.py lines
68-98): up to `num_calls` pages; stop on an error response, an empty batch, or
a batch shorter than Binance's 1000-candle ceiling; `details.extend(batch)`
runs before the short-page check.  Returns the accumulated `details` and the
number of upstream calls made. -/
def biFreshGo (oracle : Nat → Resp) : Nat → Nat → List Obs → List Obs × Nat
  | 0, calls, acc => (acc, calls)
  | n + 1, calls, acc =>
    match oracle calls with
    | Resp.error _ => (acc, calls + 1)
    | Resp.ok batch =>
      if batch.isEmpty then (acc, calls + 1)
      else if batch.length < 1000 then (acc ++ batch, calls + 1)
      else biFreshGo oracle n (calls + 1) (acc ++ batch)

def biFresh (oracle : Nat → Resp) (numCalls : Nat) : List Obs × Nat :=
  biFreshGo oracle numCalls 0 []

/-- The series a FRESH Binance collection writes (biapi.py lines 100-112). -/
def biFreshCollect (oracle : Nat → Resp) (numCalls : Nat) : Option (List Obs) :=
  sortDedupWrite (biFresh oracle numCalls).1

/-- FRESH-mode pagination loop of `call_specific_oanda` (oaapi.py lines
69-99): up to `num_calls` pages; stop on an error response or an empty batch.
There is no short-page check in this loop. -/
def oaFreshGo (oracle : Nat → Resp) : Nat → Nat → List Obs → List Obs × Nat
  | 0, calls, acc => (acc, calls)
  | n + 1, calls, acc =>
    match oracle calls with
    | Resp.error _ => (acc, calls + 1)
    | Resp.ok batch =>
      if batch.isEmpty then (acc, calls + 1)
      else oaFreshGo oracle n (calls + 1) (acc ++ batch)

def oaFresh (oracle : Nat → Resp) (numCalls : Nat) : List Obs × Nat :=
  oaFreshGo oracle numCalls 0 []

/-- The series a FRESH OANDA collection writes (oaapi.py lines 101-113). -/
def oaFreshCollect (oracle : Nat → Resp) (numCalls : Nat) : Option (List Obs) :=
  sortDedupWrite (oaFresh oracle numCalls).1

/-- The inner `while True` retry loop of `call_specific_td` (tdapi.py lines
49-78 and 110-143): on an error response whose message contains
"run out of API credits" it sleeps and retries the same request (`continue`);
any other response exits the loop.  The source loop has no retry counter, so
the embedding takes explicit fuel; `none` means the fuel ran out with every
attempt still hitting the quota error, i.e. the source loop has not exited
within that many iterations.  Returns the exiting response and the next
upstream call index. -/
def tdRetryGo (oracle : Nat → Resp) : Nat → Nat → Option (Resp × Nat)
  | 0, _ => none
  | fuel + 1, idx =>
    match oracle idx with
    | Resp.error msg =>
      if isQuotaMsg msg then tdRetryGo oracle fuel (idx + 1)
      else some (Resp.error msg, idx + 1)
    | Resp.ok values => some (Resp.ok values, idx + 1)

/-- FRESH-mode pagination loop of `call_specific_td` (tdapi.py lines 46-94):
up to `num_calls` pages, each obtained through the retry loop; stop on an
error, an empty batch, or a batch shorter than `outputsize`;
`details.extend(batch)` runs before the short-page check. -/
def tdFreshGo (oracle : Nat → Resp) (retryFuel outputsize : Nat) :
    Nat → Nat → List Obs → List Obs
  | 0, _, acc => acc
  | n + 1, idx, acc =>
    match tdRetryGo oracle retryFuel idx with
    | none => acc
    | some (Resp.error _, _) => acc
    | some (Resp.ok batch, idx2) =>
      if batch.isEmpty then acc
      else if batch.length < outputsize then acc ++ batch
      else tdFreshGo oracle retryFuel outputsize n idx2 (acc ++ batch)

/-- The series a FRESH TwelveData collection writes (tdapi.py lines 96-98):
`json.dump(details[::-1], f)` — the reversed concatenation of the batches,
with no sorting and no deduplication. -/
def tdFreshCollect (oracle : Nat → Resp) (retryFuel numCalls outputsize : Nat) :
    Option (List Obs) :=
  if (tdFreshGo oracle retryFuel outputsize numCalls 0 []).isEmpty then none
  else some (tdFreshGo oracle retryFuel outputsize numCalls 0 []).reverse

/-- The UPDATE-mode cursor: the datetime of the last record of the persisted
series (`data[-1]["datetime"]`, biapi.py line 121). -/
def cursorOf (l : List Obs) : Nat :=
  match l.getLast? with
  | some r => r.datetime
  | none => 0

/-- The UPDATE-mode filter of biapi.py line 154:
`[row for row in batch if strptime(row["datetime"]) > last_dt]`. -/
def updFilter (lastDt : Nat) (batch : List Obs) : List Obs :=
  batch.filter (fun row => decide (lastDt < row.datetime))

/-- UPDATE-mode pagination loop of `call_specific_binance` (biapi.py lines
126-166): stop on an error response or an empty batch; keep only rows with
datetime strictly after the fixed `last_dt` (the filter is against the cursor
read before the loop and never reassigned); stop when nothing survives the
filter; `new_data.extend(batch)` runs before the short-page check, which is
on the filtered batch. -/
def biUpdateGo (oracle : Nat → Resp) (lastDt : Nat) : Nat → Nat → List Obs → List Obs
  | 0, _, acc => acc
  | n + 1, idx, acc =>
    match oracle idx with
    | Resp.error _ => acc
    | Resp.ok batch0 =>
      if batch0.isEmpty then acc
      else if (updFilter lastDt batch0).isEmpty then acc
      else if (updFilter lastDt batch0).length < 1000 then acc ++ updFilter lastDt batch0
      else biUpdateGo oracle lastDt n (idx + 1) (acc ++ updFilter lastDt batch0)

/-- The UPDATE-mode run of `call_specific_binance` (biapi.py lines 116-175):
collect `new_data`, then append it to the existing series and rewrite the
file; when `new_data` is empty nothing is written (`none`). -/
def biUpdateRun (oracle : Nat → Resp) (existing : List Obs) (fuel : Nat) :
    Option (List Obs) :=
  if (biUpdateGo oracle (cursorOf existing) fuel 0 []).isEmpty then none
  else some (existing ++ biUpdateGo oracle (cursorOf existing) fuel 0 [])

/-- The UPDATE-mode run of `call_specific_fred` (frapi.py lines 87-113): a
single fetch returns `newValues`; an empty result writes nothing; otherwise
records whose datetime already occurs in the existing series are dropped
(membership in `existing_dates`, lines 104-105) and the survivors, if any,
are appended and written; if none survive nothing is written.
`call_specific_yf` (yfapi.py lines 99-110) uses the same membership filter. -/
def frUpdateRun (existing newValues : List Obs) : Option (List Obs) :=
  if newValues.isEmpty then none
  else if (newValues.filter
      (fun v => !(existing.any (fun d => d.datetime == v.datetime)))).isEmpty then none
  else some (existing ++ newValues.filter
      (fun v => !(existing.any (fun d => d.datetime == v.datetime))))

/-- What the driver finds at the symbol's JSON path: no file, a file whose
content fails to parse (invalid JSON, or a last record whose "datetime" does
not parse — both raise inside the `try` of biapi.py lines 52-59), or a
successfully parsed list of records. -/
inductive FileState where
  | absent
  | unparsable
  | parsed (data : List Obs)
deriving DecidableEq

inductive Mode where
  | fresh
  | update
deriving DecidableEq

/-- The FRESH/UPDATE decision at the top of `call_specific_binance` (biapi.py
lines 49-67; `call_specific_yf` lines 35-60 has the same shape): `is_fresh`
starts true; a parsed non-empty list (`if data:`) switches to update; a parse
failure removes the file (`os.remove`) and stays fresh, with the exception
swallowed by `except Exception`.  Returns the chosen mode and the file state
after the decision. -/
def biDecideMode : FileState → Mode × FileState
  | FileState.absent => (Mode.fresh, FileState.absent)
  | FileState.unparsable => (Mode.fresh, FileState.absent)
  | FileState.parsed data =>
    if data.isEmpty then (Mode.fresh, FileState.parsed data)
    else (Mode.update, FileState.parsed data)

/-- Outcome of the underlying `requests.get`: a 2xx response carrying a
normalized body, or a status that makes `raise_for_status()` raise
`requests.exceptions.HTTPError`. -/
inductive HttpOutcome where
  | success (r : Resp)
  | httpError
deriving DecidableEq

/-- What an adapter call does: return a value to the driver, or let an
exception escape. -/
inductive AdapterOut where
  | ret (r : Resp)
  | raised
deriving DecidableEq

/-- `BinanceAPI` (biapi.py lines 216-263): the whole request is wrapped in
`try`, and the `except requests.exceptions.HTTPError` handler (with the
further `RequestException` and `Exception` handlers) converts any raise into
an error dict, so the adapter never lets an exception escape. -/
def binanceAdapter : HttpOutcome → AdapterOut
  | HttpOutcome.success r => AdapterOut.ret r
  | HttpOutcome.httpError => AdapterOut.ret (Resp.error "HTTP error")

/-- `TwelveDataAPI` (tdapi.py lines 210-231): `requests.get` followed by
`response.raise_for_status()` with no enclosing `try`, so an HTTP error
propagates out of the adapter. -/
def twelveDataAdapter : HttpOutcome → AdapterOut
  | HttpOutcome.success r => AdapterOut.ret r
  | HttpOutcome.httpError => AdapterOut.raised

/-- The per-symbol loop `for symbol in symbols:` of a driver, with the body
abstracted to that symbol's upstream call through the given adapter (the
containment property depends only on whether the adapter traps exceptions).
A returned response — error dict included — lets the loop advance to the next
symbol; an exception escaping the body aborts the whole loop, as in Python.
Returns the symbols whose processing was attempted, or the symbol at which
the batch aborted. -/
def processBatch (adapter : HttpOutcome → AdapterOut) (outcome : String → HttpOutcome) :
    List String → Except String (List String)
  | [] => Except.ok []
  | s :: rest =>
    match adapter (outcome s) with
    | AdapterOut.raised => Except.error s
    | AdapterOut.ret _ =>
      match processBatch adapter outcome rest with
      | Except.ok done => Except.ok (s :: done)
      | Except.error e => Except.error e

/-- File-system effects visible in the drivers. -/
inductive FsOp where
  | openTrunc (p : String)
  | writeAll (p : String) (content : String)
  | rename (src dst : String)
deriving DecidableEq

def applyOp (fs : String → Option String) : FsOp → String → Option String
  | FsOp.openTrunc p => fun q => if q = p then some "" else fs q
  | FsOp.writeAll p c => fun q => if q = p then some c else fs q
  | FsOp.rename src dst =>
    fun q => if q = dst then fs src else if q = src then none else fs q

def runOps (fs : String → Option String) : List FsOp → String → Option String
  | [] => fs
  | op :: rest => runOps (applyOp fs op) rest

/-- The file effects of every series save in the drivers, e.g. biapi.py lines
110-111 (`with open(file_path, "w") as f: json.dump(...)`, likewise oaapi.py
lines 111-112 and yfapi.py lines 96-97): opening the published path itself in
mode "w" truncates it, then the serialized series is written.  No other path
is touched. -/
def biSaveOps (p : String) (content : String) : List FsOp :=
  [FsOp.openTrunc p, FsOp.writeAll p content]

/-- Following the spec's words ("write to temporary location, then publish"):
a save is crash-safe for the published path when after every prefix of its
file operations the published path holds either its old content or the
complete new content. -/
def crashSafePublish (ops : List FsOp) (p : String) (fs : String → Option String)
    (newContent : String) : Prop :=
  ∀ pre, pre <+: ops → runOps fs pre p = fs p ∨ runOps fs pre p = some newContent

/-- The emitted wall-clock of the Binance adapter (biapi.py line 233):
`datetime.datetime.fromtimestamp(open_time_ms / 1000)` converts the epoch
instant using the host's local timezone, so the subsequent `strftime` prints
epoch-seconds + host-UTC-offset. -/
def biEmitWallClock (hostOffset epochSec : Int) : Int := epochSec + hostOffset

/-- The emitted wall-clock of the OANDA adapter (oaapi.py line 263):
`datetime.datetime.fromisoformat(time_str.replace("Z", "+00:00"))` yields an
aware UTC datetime, whose `strftime` prints the UTC wall-clock regardless of
the host timezone. -/
def oaEmitWallClock (hostOffset epochSec : Int) : Int :=
  let _ := hostOffset
  epochSec

/-- Following the spec's words: the UTC wall-clock representation of an
upstream epoch instant. -/
def specUtcWallClock (epochSec : Int) : Int := epochSec

/-- Rate-limiter state: `callsInWindow`, `windowStart`, and the current clock,
all in seconds; the caller spends time only inside `time.sleep`. -/
structure RLState where
  calls : Nat
  windowStart : Nat
  now : Nat
deriving DecidableEq

/-- One pass through the rate-limit block of `call_specific_binance`
(biapi.py lines 70-79, same shape at oaapi.py lines 71-79): increment
`calls_this_minute` first; if it has reached `rate_limit`, sleep
`W - elapsed + pad` when the window has not yet elapsed, then reset the
counter to zero and restart the window at the current time.  The upstream
call is issued at the returned `now`. -/
def rlAcquire (N W pad : Nat) (s : RLState) : RLState :=
  let c := s.calls + 1
  if N ≤ c then
    let elapsed := s.now - s.windowStart
    if elapsed < W then
      let t := s.now + (W - elapsed + pad)
      ⟨0, t, t⟩
    else ⟨0, s.now, s.now⟩
  else ⟨c, s.windowStart, s.now⟩

/-- State after `k` acquisitions issued as fast as possible from a fresh
limiter (no time passes outside the sleeps). -/
def rlRun (N W pad : Nat) : Nat → RLState
  | 0 => ⟨0, 0, 0⟩
  | k + 1 => rlAcquire N W pad (rlRun N W pad k)

/-- The wall-clock instant at which the k-th upstream call is issued. -/
def callTime (N W pad k : Nat) : Nat := (rlRun N W pad k).now

/-! ### Concrete inputs used by counterexamples and witnesses -/

/-- One short TwelveData page holding two records with the same timestamp. -/
def c1Oracle : Nat → Resp := fun _ => Resp.ok [⟨5, 0⟩, ⟨5, 1⟩]

/-- One short Binance page with a duplicate timestamp and out-of-order rows. -/
def c1WOracle : Nat → Resp := fun _ => Resp.ok [⟨2, 0⟩, ⟨1, 0⟩, ⟨2, 5⟩]

/-- An HTTP failure on the first symbol only. -/
def c3Outcome : String → HttpOutcome := fun s =>
  if s = "EURUSD" then HttpOutcome.httpError else HttpOutcome.success (Resp.ok [])

/-- A file system whose published path holds previously persisted content. -/
def c4Fs : String → Option String := fun q =>
  if q = "BTC.json" then some "old" else none

/-- An OANDA history: a short first page (3 records) and a further page. -/
def c5Oracle : Nat → Resp := fun i =>
  if i = 0 then Resp.ok [⟨10, 0⟩, ⟨11, 0⟩, ⟨12, 0⟩] else Resp.ok [⟨1, 0⟩]

/-- A single short Binance page of three ascending records. -/
def c5WOracle : Nat → Resp := fun _ => Resp.ok [⟨1, 0⟩, ⟨2, 0⟩, ⟨3, 0⟩]

/-- An upstream that reports quota exhaustion on every attempt. -/
def quotaOracle : Nat → Resp := fun _ => Resp.error "run out of API credits"

/-- An upstream whose first attempt hits the quota and whose second succeeds. -/
def c9WOracle : Nat → Resp := fun i =>
  if i = 0 then Resp.error "run out of API credits" else Resp.ok []

/-- Against `quotaOracle`, the TwelveData retry loop has not exited after any
number of iterations. -/
def tdQuotaLoopStuck : Prop :=
  ∀ fuel idx, tdRetryGo quotaOracle fuel idx = none

/-! ### Helper lemmas -/

theorem dedupFirstGo_sublist : ∀ (l : List Obs) (seen : List Nat),
    List.Sublist (dedupFirstGo seen l) l
  | [], _ => List.nil_sublist _
  | d :: rest, seen => by
    unfold dedupFirstGo
    by_cases h : d.datetime ∈ seen
    · simp only [if_pos h]
      exact (dedupFirstGo_sublist rest seen).cons _
    · simp only [if_neg h]
      exact (dedupFirstGo_sublist rest _).cons₂ _

theorem dedupFirstGo_not_mem_seen : ∀ (l : List Obs) (seen : List Nat) (x : Obs),
    x ∈ dedupFirstGo seen l → x.datetime ∉ seen
  | [], _, _, hx => by simp [dedupFirstGo] at hx
  | d :: rest, seen, x, hx => by
    unfold dedupFirstGo at hx
    by_cases h : d.datetime ∈ seen
    · rw [if_pos h] at hx
      exact dedupFirstGo_not_mem_seen rest seen x hx
    · rw [if_neg h] at hx
      rcases List.mem_cons.mp hx with rfl | hx'
      · exact h
      · intro hmem
        exact dedupFirstGo_not_mem_seen rest _ x hx' (List.mem_cons_of_mem _ hmem)

theorem dedupFirstGo_pairwise_ne : ∀ (l : List Obs) (seen : List Nat),
    (dedupFirstGo seen l).Pairwise (fun a b => a.datetime ≠ b.datetime)
  | [], _ => List.Pairwise.nil
  | d :: rest, seen => by
    unfold dedupFirstGo
    by_cases h : d.datetime ∈ seen
    · rw [if_pos h]
      exact dedupFirstGo_pairwise_ne rest seen
    · rw [if_neg h]
      refine List.Pairwise.cons ?_ (dedupFirstGo_pairwise_ne rest _)
      intro x hx heq
      exact dedupFirstGo_not_mem_seen rest _ x hx (heq ▸ List.mem_cons_self _ _)

theorem sortDedup_pairwise_lt (l : List Obs) :
    (dedupFirst (sortByDatetime l)).Pairwise (fun a b => a.datetime < b.datetime) := by
  have hs : (sortByDatetime l).Pairwise dtle := List.sorted_insertionSort dtle l
  have hle : (dedupFirst (sortByDatetime l)).Pairwise dtle :=
    hs.sublist (dedupFirstGo_sublist _ _)
  have hne := dedupFirstGo_pairwise_ne (sortByDatetime l) []
  exact (hle.and hne).imp (fun h => Nat.lt_of_le_of_ne h.1 h.2)

theorem orderedInsert_filter_dt (a : Obs) (t : Nat) : ∀ (l : List Obs),
    (List.orderedInsert dtle a l).filter (fun x => x.datetime == t) =
      if a.datetime = t then a :: l.filter (fun x => x.datetime == t)
      else l.filter (fun x => x.datetime == t)
  | [] => by
    by_cases h : a.datetime = t <;> simp [List.orderedInsert, List.filter_cons, h]
  | b :: l => by
    unfold List.orderedInsert
    by_cases hab : dtle a b
    · rw [if_pos hab]
      by_cases h : a.datetime = t <;> simp [List.filter_cons, h]
    · rw [if_neg hab]
      have hblt : b.datetime < a.datetime := Nat.lt_of_not_le hab
      by_cases h : a.datetime = t
      · have hb : ¬ b.datetime = t := by omega
        simp [List.filter_cons, hb, orderedInsert_filter_dt a t l, h]
      · by_cases hb : b.datetime = t <;>
          simp [List.filter_cons, hb, orderedInsert_filter_dt a t l, h]

theorem sortByDatetime_filter_dt (t : Nat) : ∀ (l : List Obs),
    (sortByDatetime l).filter (fun x => x.datetime == t) =
      l.filter (fun x => x.datetime == t)
  | [] => rfl
  | b :: l => by
    show (List.orderedInsert dtle b (sortByDatetime l)).filter _ = _
    rw [orderedInsert_filter_dt, sortByDatetime_filter_dt t l]
    by_cases h : b.datetime = t <;> simp [List.filter_cons, h]

theorem dedupFirstGo_filter_dt : ∀ (l : List Obs) (seen : List Nat) (t : Nat),
    (dedupFirstGo seen l).filter (fun x => x.datetime == t) =
      if t ∈ seen then [] else (l.filter (fun x => x.datetime == t)).take 1
  | [], seen, t => by by_cases h : t ∈ seen <;> simp [dedupFirstGo, h]
  | d :: rest, seen, t => by
    unfold dedupFirstGo
    by_cases hmem : d.datetime ∈ seen
    · rw [if_pos hmem, dedupFirstGo_filter_dt rest seen t]
      by_cases ht : t ∈ seen
      · simp [ht]
      · have hd : ¬ d.datetime = t := fun h => ht (h ▸ hmem)
        simp [ht, List.filter_cons, hd]
    · rw [if_neg hmem]
      by_cases hd : d.datetime = t
      · subst hd
        have ht : d.datetime ∉ seen := hmem
        rw [List.filter_cons]
        simp only [beq_self_eq_true, if_pos]
        rw [dedupFirstGo_filter_dt rest _ d.datetime]
        simp [ht, List.filter_cons]
      · rw [List.filter_cons, dedupFirstGo_filter_dt rest _ t]
        by_cases ht : t ∈ seen
        · have hmem2 : t ∈ d.datetime :: seen := List.mem_cons_of_mem _ ht
          simp [hd, ht, hmem2]
        · have htd : t ∉ d.datetime :: seen := by
            intro hc
            rcases List.mem_cons.mp hc with h1 | h2
            · exact hd h1.symm
            · exact ht h2
          simp [hd, ht, htd, List.filter_cons]

theorem sortDedupWrite_spec (d w : List Obs) (h : sortDedupWrite d = some w) :
    w.Pairwise (fun a b => a.datetime < b.datetime) ∧
    ∀ t, w.filter (fun x => x.datetime == t) =
      (d.filter (fun x => x.datetime == t)).take 1 := by
  unfold sortDedupWrite at h
  by_cases hd : d.isEmpty
  · rw [if_pos hd] at h; cases h
  · rw [if_neg hd] at h
    cases h
    refine ⟨sortDedup_pairwise_lt d, fun t => ?_⟩
    show (dedupFirstGo [] (sortByDatetime d)).filter _ = _
    rw [dedupFirstGo_filter_dt]
    simp [sortByDatetime_filter_dt]

theorem updFilter_mem {lastDt : Nat} {b : List Obs} {r : Obs}
    (hr : r ∈ updFilter lastDt b) : lastDt < r.datetime := by
  unfold updFilter at hr
  rcases List.mem_filter.mp hr with ⟨_, hp⟩
  exact of_decide_eq_true hp

theorem biUpdateGo_mem_gt (oracle : Nat → Resp) (lastDt : Nat) :
    ∀ (fuel idx : Nat) (acc : List Obs),
      (∀ r ∈ acc, lastDt < r.datetime) →
      ∀ r ∈ biUpdateGo oracle lastDt fuel idx acc, lastDt < r.datetime := by
  intro fuel
  induction fuel with
  | zero => intro idx acc hacc r hr; exact hacc r hr
  | succ n ih =>
    intro idx acc hacc r hr
    unfold biUpdateGo at hr
    cases h0 : oracle idx with
    | error msg => rw [h0] at hr; exact hacc r hr
    | ok batch0 =>
      rw [h0] at hr
      dsimp only at hr
      by_cases hb : batch0.isEmpty = true
      · rw [if_pos hb] at hr; exact hacc r hr
      · rw [if_neg hb] at hr
        by_cases hf : (updFilter lastDt batch0).isEmpty = true
        · rw [if_pos hf] at hr; exact hacc r hr
        · rw [if_neg hf] at hr
          by_cases hl : (updFilter lastDt batch0).length < 1000
          · rw [if_pos hl] at hr
            rcases List.mem_append.mp hr with h | h
            · exact hacc r h
            · exact updFilter_mem h
          · rw [if_neg hl] at hr
            refine ih (idx + 1) _ ?_ r hr
            intro x hx
            rcases List.mem_append.mp hx with h | h
            · exact hacc x h
            · exact updFilter_mem h

theorem rlRun_lt (N W pad : Nat) : ∀ k, k < N → rlRun N W pad k = ⟨k, 0, 0⟩ := by
  intro k
  induction k with
  | zero => intro _; rfl
  | succ m ih =>
    intro hk
    have hm : m < N := Nat.lt_of_succ_lt hk
    show rlAcquire N W pad (rlRun N W pad m) = _
    rw [ih hm]
    unfold rlAcquire
    have hnot : ¬ N ≤ m + 1 := Nat.not_le.mpr hk
    simp [hnot]

/-! ### The claims -/

/-- C1: the claim says every driver's FRESH-mode series is written sorted
ascending with duplicate timestamps collapsed.  Counterexample: the TwelveData
driver writes `details[::-1]` with neither sorting nor deduplication, so one
short page holding two records with timestamp 5 is written with both records,
and the written series has no strictly increasing timestamp sequence. -/
theorem C1_counterexample :
    tdFreshCollect c1Oracle 1 1 5000 = some [⟨5, 1⟩, ⟨5, 0⟩] ∧
    ¬ ([⟨5, 1⟩, ⟨5, 0⟩] : List Obs).Pairwise (fun a b => a.datetime < b.datetime) := by
  constructor
  · rfl
  · decide

/-- C1 (amended): in the Binance and OANDA drivers every FRESH-mode series
written to disk is strictly ascending by timestamp with exact duplicate
timestamps collapsed keeping the first-seen record (per timestamp the written
record is the first one in the accumulated details); the TwelveData driver
instead writes the reversed concatenation of the fetched batches, which can
contain duplicate or out-of-order timestamps. -/
theorem C1_fresh_written_sorted_dedup :
    (∀ oracle numCalls w, biFreshCollect oracle numCalls = some w →
      w.Pairwise (fun a b => a.datetime < b.datetime) ∧
      ∀ t, w.filter (fun x => x.datetime == t) =
        ((biFresh oracle numCalls).1.filter (fun x => x.datetime == t)).take 1) ∧
    (∀ oracle numCalls w, oaFreshCollect oracle numCalls = some w →
      w.Pairwise (fun a b => a.datetime < b.datetime) ∧
      ∀ t, w.filter (fun x => x.datetime == t) =
        ((oaFresh oracle numCalls).1.filter (fun x => x.datetime == t)).take 1) :=
  ⟨fun _ _ w h => sortDedupWrite_spec _ w h,
   fun _ _ w h => sortDedupWrite_spec _ w h⟩

/-- C1 witness: a concrete Binance FRESH collection. -/
theorem C1_witness :
    ([⟨1, 0⟩, ⟨2, 0⟩] : List Obs).Pairwise (fun a b => a.datetime < b.datetime) :=
  (C1_fresh_written_sorted_dedup.1 c1WOracle 1 [⟨1, 0⟩, ⟨2, 0⟩] (by decide)).1

/-- C2: the claim says every UPDATE-mode driver retains only records strictly
after the cursor.  Counterexample: the FRED driver filters by datetime
membership in the existing series, so a fetched record at timestamp 2 — at or
before the cursor 3 but absent from the existing datetimes — is retained and
appended. -/
theorem C2_counterexample :
    frUpdateRun [⟨1, 0⟩, ⟨3, 0⟩] [⟨2, 7⟩] = some [⟨1, 0⟩, ⟨3, 0⟩, ⟨2, 7⟩] ∧
    cursorOf [⟨1, 0⟩, ⟨3, 0⟩] = 3 ∧ ¬ ((2 : Nat) > 3) := by
  refine ⟨rfl, rfl, by decide⟩

/-- C2 (amended): in the Binance driver (and the OANDA/TwelveData drivers,
which use the same strictly-greater filter) every record the UPDATE run
appends is strictly after the cursor; the FRED and YFinance drivers instead
drop only records whose datetime already occurs in the existing series, so a
fetched record at or before the cursor with a novel datetime is retained. -/
theorem C2_update_retains_only_after_cursor :
    ∀ (oracle : Nat → Resp) (existing : List Obs) (fuel : Nat) (w : List Obs),
      biUpdateRun oracle existing fuel = some w →
      ∃ newData, w = existing ++ newData ∧
        ∀ r ∈ newData, cursorOf existing < r.datetime := by
  intro oracle existing fuel w h
  unfold biUpdateRun at h
  by_cases hg : (biUpdateGo oracle (cursorOf existing) fuel 0 []).isEmpty = true
  · rw [if_pos hg] at h; cases h
  · rw [if_neg hg] at h
    cases h
    refine ⟨biUpdateGo oracle (cursorOf existing) fuel 0 [], rfl, ?_⟩
    intro r hr
    exact biUpdateGo_mem_gt oracle (cursorOf existing) fuel 0 []
      (fun x hx => nomatch hx) r hr

/-- C2 witness: a concrete Binance UPDATE run. -/
theorem C2_witness :
    ∃ newData, ([⟨1, 0⟩, ⟨3, 1⟩, ⟨5, 2⟩] : List Obs) = [⟨1, 0⟩, ⟨3, 1⟩] ++ newData ∧
      ∀ r ∈ newData, cursorOf [⟨1, 0⟩, ⟨3, 1⟩] < r.datetime :=
  C2_update_retains_only_after_cursor (fun _ => Resp.ok [⟨5, 2⟩]) [⟨1, 0⟩, ⟨3, 1⟩] 3
    [⟨1, 0⟩, ⟨3, 1⟩, ⟨5, 2⟩] (by decide)

/-- C3: the claim says every driver contains every per-symbol error,
including HTTP errors, and advances to the next symbol.  Counterexample: the
TwelveData adapter calls `raise_for_status()` with no enclosing try, and the
driver's symbol loop has no handler either, so an HTTP error on the first
symbol aborts the batch and the second symbol is never processed. -/
theorem C3_counterexample :
    processBatch twelveDataAdapter c3Outcome ["EURUSD", "GBPUSD"] =
      Except.error "EURUSD" := by
  rfl

/-- C3 (amended): the Binance driver (and the OANDA driver, whose adapter has
the same handlers) converts HTTP errors into error responses inside the
adapter, so its symbol loop attempts every symbol of the batch no matter what
the upstream outcomes are; the TwelveData driver does not catch exceptions
from its adapter, so an HTTP error while collecting one symbol aborts the
remaining batch. -/
theorem C3_binance_batch_never_aborts :
    ∀ (outcome : String → HttpOutcome) (symbols : List String),
      processBatch binanceAdapter outcome symbols = Except.ok symbols := by
  intro outcome symbols
  induction symbols with
  | nil => rfl
  | cons s rest ih =>
    cases h : outcome s <;> simp [processBatch, binanceAdapter, ih, h]

/-- C3 witness: a concrete batch where every upstream call fails. -/
theorem C3_witness :
    processBatch binanceAdapter (fun _ => HttpOutcome.httpError) ["BTC", "ETH"] =
      Except.ok ["BTC", "ETH"] :=
  C3_binance_batch_never_aborts (fun _ => HttpOutcome.httpError) ["BTC", "ETH"]

/-- C4: the claim says every save writes to a temporary location and then
publishes, so an interrupt can never leave a truncated file.  Counterexample:
the save opens the published path itself with a truncating write and no
rename, so the interrupt point right after `open(file_path, "w")` — the
one-operation prefix of the save — leaves the empty (truncated) file at the
published path, which is neither the old nor the new content. -/
theorem C4_counterexample :
    [FsOp.openTrunc "BTC.json"] <+: biSaveOps "BTC.json" "new" ∧
    runOps c4Fs [FsOp.openTrunc "BTC.json"] "BTC.json" = some "" ∧
    c4Fs "BTC.json" = some "old" ∧
    ¬ crashSafePublish (biSaveOps "BTC.json" "new") "BTC.json" c4Fs "new" := by
  refine ⟨⟨[FsOp.writeAll "BTC.json" "new"], rfl⟩, rfl, rfl, ?_⟩
  intro h
  have h2 := h [FsOp.openTrunc "BTC.json"] ⟨[FsOp.writeAll "BTC.json" "new"], rfl⟩
  rcases h2 with h3 | h3
  · exact absurd h3 (by decide)
  · exact absurd h3 (by decide)

/-- C4 (amended): every save opens the published path directly in truncating
write mode and then writes the full serialized series — there is no temporary
file and no rename — so an uninterrupted save leaves exactly the new content
while an interrupt between the truncation and the write leaves an empty file
at the published path. -/
theorem C4_save_truncates_published_path :
    ∀ (fs : String → Option String) (p c : String),
      runOps fs (biSaveOps p c) p = some c ∧
      [FsOp.openTrunc p] <+: biSaveOps p c ∧
      runOps fs [FsOp.openTrunc p] p = some "" := by
  intro fs p c
  refine ⟨?_, ⟨[FsOp.writeAll p c], rfl⟩, ?_⟩
  · simp [biSaveOps, runOps, applyOp]
  · simp [runOps, applyOp]

/-- C4 witness: a concrete save over an empty file system. -/
theorem C4_witness :
    runOps (fun _ => none) (biSaveOps "a.json" "x") "a.json" = some "x" ∧
    [FsOp.openTrunc "a.json"] <+: biSaveOps "a.json" "x" ∧
    runOps (fun _ => none) [FsOp.openTrunc "a.json"] "a.json" = some "" :=
  C4_save_truncates_published_path (fun _ => none) "a.json" "x"

/-- C5: the claim says every paginating driver stops FRESH pagination as soon
as a page is shorter than the page-size ceiling.  Counterexample: the OANDA
FRESH loop has no short-page check — after a first page of 3 records
(ceiling 5000) and with a call budget of 2 it issues a second upstream call
and accumulates its records as well. -/
theorem C5_counterexample :
    (oaFresh c5Oracle 2).2 = 2 ∧
    (oaFresh c5Oracle 2).1 = [⟨10, 0⟩, ⟨11, 0⟩, ⟨12, 0⟩, ⟨1, 0⟩] ∧
    ([⟨10, 0⟩, ⟨11, 0⟩, ⟨12, 0⟩] : List Obs).length < 5000 := by
  refine ⟨rfl, rfl, by decide⟩

/-- C5 (amended): the Binance FRESH loop stops after one short page —
exactly one upstream call is made and the series written is exactly that
page's records, sorted and deduplicated.  The TwelveData FRESH loop has the
same `len(batch) < outputsize` break and so also stops after one short page,
but what it then writes is the reversed batch concatenation with no sorting
or deduplication (see C1).  The OANDA FRESH loop instead keeps paging until
the call budget, an error, or an empty page. -/
theorem C5_binance_stops_on_short_page :
    ∀ (oracle : Nat → Resp) (n : Nat) (batch : List Obs),
      oracle 0 = Resp.ok batch → batch ≠ [] → batch.length < 1000 →
      biFresh oracle (n + 1) = (batch, 1) ∧
      biFreshCollect oracle (n + 1) = some (dedupFirst (sortByDatetime batch)) := by
  intro oracle n batch h0 hne hlen
  have hb : batch.isEmpty = false := by
    cases batch with
    | nil => exact absurd rfl hne
    | cons a l => rfl
  have h1 : biFresh oracle (n + 1) = (batch, 1) := by
    unfold biFresh biFreshGo
    rw [h0]
    simp [hb, hlen]
  refine ⟨h1, ?_⟩
  unfold biFreshCollect
  rw [h1]
  unfold sortDedupWrite
  simp [hb]

/-- C5 witness: a concrete one-page Binance history. -/
theorem C5_witness :
    biFresh c5WOracle 1 = ([⟨1, 0⟩, ⟨2, 0⟩, ⟨3, 0⟩], 1) ∧
    biFreshCollect c5WOracle 1 =
      some (dedupFirst (sortByDatetime [⟨1, 0⟩, ⟨2, 0⟩, ⟨3, 0⟩])) :=
  C5_binance_stops_on_short_page c5WOracle 0 [⟨1, 0⟩, ⟨2, 0⟩, ⟨3, 0⟩]
    rfl (by decide) (by decide)

/-- C6: the claim says UPDATE mode is chosen if and only if the persisted
file is present and parses.  Counterexample: a present file parsing to the
empty list (`if data:` is false) leaves the driver in FRESH mode. -/
theorem C6_counterexample :
    (biDecideMode (FileState.parsed [])).1 = Mode.fresh ∧ Mode.fresh ≠ Mode.update := by
  refine ⟨rfl, by decide⟩

/-- C6 (amended): the collector runs in UPDATE mode iff a persisted file is
present, parses successfully, and holds a non-empty record list; a present
file that fails to parse is removed (`os.remove`) and the symbol is collected
fresh, the exception being swallowed inside the driver. -/
theorem C6_mode_decision :
    ∀ fs : FileState,
      ((biDecideMode fs).1 = Mode.update ↔ ∃ d, fs = FileState.parsed d ∧ d ≠ []) ∧
      biDecideMode FileState.unparsable = (Mode.fresh, FileState.absent) := by
  intro fs
  refine ⟨?_, rfl⟩
  cases fs with
  | absent =>
    constructor
    · intro h; exact absurd h (by decide)
    · rintro ⟨d, hd, _⟩; cases hd
  | unparsable =>
    constructor
    · intro h; exact absurd h (by decide)
    · rintro ⟨d, hd, _⟩; cases hd
  | parsed data =>
    cases data with
    | nil =>
      constructor
      · intro h; exact absurd h (by decide)
      · rintro ⟨d, hd, hne⟩
        injection hd with hd'
        exact absurd hd'.symm hne
    | cons a rest =>
      constructor
      · intro _
        exact ⟨a :: rest, rfl, by simp⟩
      · intro _
        rfl

/-- C6 witness: a present, parsed, non-empty file yields UPDATE mode. -/
theorem C6_witness :
    (((biDecideMode (FileState.parsed [⟨1, 0⟩])).1 = Mode.update ↔
      ∃ d, FileState.parsed [⟨1, 0⟩] = FileState.parsed d ∧ d ≠ []) ∧
      biDecideMode FileState.unparsable = (Mode.fresh, FileState.absent)) :=
  C6_mode_decision (FileState.parsed [⟨1, 0⟩])

/-- C7: the claim says an UPDATE run in which the upstream returns no record
strictly after the cursor performs no write.  Counterexample: the FRED driver
filters by datetime membership, so an upstream batch holding one record at
timestamp 20 — not after the cursor 30, but with a datetime absent from the
existing series — triggers a write that changes the persisted file. -/
theorem C7_counterexample :
    frUpdateRun [⟨10, 0⟩, ⟨30, 0⟩] [⟨20, 5⟩] = some [⟨10, 0⟩, ⟨30, 0⟩, ⟨20, 5⟩] ∧
    cursorOf [⟨10, 0⟩, ⟨30, 0⟩] = 30 ∧ ¬ ((20 : Nat) > 30) := by
  refine ⟨rfl, rfl, by decide⟩

/-- C7 (amended): the Binance UPDATE run performs no write whenever every
upstream record is at or before the cursor (in particular when nothing new
exists, so a second identical run leaves the file untouched); the FRED UPDATE
run performs no write whenever every fetched datetime already occurs in the
existing series — but a fetched record at or before the cursor with a novel
datetime does trigger a write. -/
theorem C7_no_write_without_new_data :
    (∀ (oracle : Nat → Resp) (existing : List Obs) (fuel : Nat),
      (∀ i vs, oracle i = Resp.ok vs → ∀ r ∈ vs, r.datetime ≤ cursorOf existing) →
      biUpdateRun oracle existing fuel = none) ∧
    (∀ existing newValues : List Obs,
      (∀ v ∈ newValues, ∃ d ∈ existing, d.datetime = v.datetime) →
      frUpdateRun existing newValues = none) := by
  constructor
  · intro oracle existing fuel hall
    have hgo : biUpdateGo oracle (cursorOf existing) fuel 0 [] = [] := by
      cases fuel with
      | zero => rfl
      | succ n =>
        unfold biUpdateGo
        cases h0 : oracle 0 with
        | error msg => rfl
        | ok batch0 =>
          dsimp only
          by_cases hb : batch0.isEmpty = true
          · rw [if_pos hb]
          · have hfil : updFilter (cursorOf existing) batch0 = [] := by
              unfold updFilter
              rw [List.filter_eq_nil_iff]
              intro r hr
              have hle := hall 0 batch0 h0 r hr
              simp only [decide_eq_true_eq]
              omega
            rw [if_neg hb, hfil]
            rfl
    unfold biUpdateRun
    rw [hgo]
    rfl
  · intro existing newValues hall
    unfold frUpdateRun
    by_cases hnv : newValues.isEmpty = true
    · rw [if_pos hnv]
    · rw [if_neg hnv]
      have hfil : newValues.filter
          (fun v => !(existing.any (fun d => d.datetime == v.datetime))) = [] := by
        rw [List.filter_eq_nil_iff]
        intro v hv
        obtain ⟨d, hd, hdt⟩ := hall v hv
        have hany : existing.any (fun d => d.datetime == v.datetime) = true :=
          List.any_eq_true.mpr ⟨d, hd, by simp [hdt]⟩
        simp [hany]
      rw [hfil]
      rfl

/-- C7 witness: a Binance run whose upstream only repeats stale records, and
a FRED run whose upstream only repeats an already-persisted record. -/
theorem C7_witness :
    biUpdateRun (fun _ => Resp.ok [⟨3, 0⟩]) [⟨1, 0⟩, ⟨5, 0⟩] 4 = none ∧
    frUpdateRun [⟨1, 0⟩, ⟨5, 0⟩] [⟨5, 9⟩] = none := by
  constructor
  · refine C7_no_write_without_new_data.1 (fun _ => Resp.ok [⟨3, 0⟩]) [⟨1, 0⟩, ⟨5, 0⟩] 4 ?_
    intro i vs h r hr
    cases h
    have : r = (⟨3, 0⟩ : Obs) := by
      rcases List.mem_cons.mp hr with h1 | h1
      · exact h1
      · cases h1
    rw [this]
    decide
  · refine C7_no_write_without_new_data.2 [⟨1, 0⟩, ⟨5, 0⟩] [⟨5, 9⟩] ?_
    decide

/-- C8: the claim says every adapter emits the UTC wall-clock of the upstream
instant, independent of the host timezone.  Counterexample: the Binance
adapter converts with `datetime.fromtimestamp`, which applies the host local
timezone, so on a host at UTC+1 (offset 3600 s) the epoch instant 0 is
emitted as wall-clock 3600 instead of the UTC representation 0. -/
theorem C8_counterexample :
    biEmitWallClock 3600 0 = 3600 ∧ specUtcWallClock 0 = 0 ∧ (3600 : Int) ≠ 0 := by
  refine ⟨rfl, rfl, by decide⟩

/-- C8 (amended): the OANDA adapter emits the UTC wall-clock independently of
the host timezone; the Binance adapter emits the host-local wall-clock, which
equals the UTC representation exactly when the host's UTC offset is zero. -/
theorem C8_utc_normalization :
    ∀ (hostOffset epochSec : Int),
      oaEmitWallClock hostOffset epochSec = specUtcWallClock epochSec ∧
      (biEmitWallClock hostOffset epochSec = specUtcWallClock epochSec ↔ hostOffset = 0) := by
  intro off s
  refine ⟨rfl, ?_⟩
  unfold biEmitWallClock specUtcWallClock
  omega

/-- C8 witness: a concrete instant on a UTC host and on a UTC+1 host. -/
theorem C8_witness :
    oaEmitWallClock 3600 7 = specUtcWallClock 7 ∧
    (biEmitWallClock 3600 7 = specUtcWallClock 7 ↔ (3600 : Int) = 0) :=
  C8_utc_normalization 3600 7

/-- C9: the claim says the quota-exhausted retry loop is bounded and always
terminates.  Counterexample: against an upstream that reports quota
exhaustion on every attempt, the TwelveData retry loop (`while True` with
`continue` and no retry counter) has not exited after any number of
iterations. -/
theorem C9_counterexample : tdQuotaLoopStuck := by
  intro fuel
  induction fuel with
  | zero => intro idx; rfl
  | succ n ih =>
    intro idx
    have hq : isQuotaMsg "run out of API credits" = true := by decide
    show tdRetryGo quotaOracle (n + 1) idx = none
    unfold tdRetryGo
    simp only [quotaOracle, hq, if_true]
    exact ih (idx + 1)

/-- C9 (amended): on quota-exhausted errors the driver sleeps until the next
window and retries the same request with no bound on the retry count; the
retry loop exits iff some attempt returns a non-quota response, and it exits
at the first such response. -/
theorem C9_retry_exits_on_first_non_quota :
    ∀ (oracle : Nat → Resp) (fuel idx : Nat),
      (∃ j, j < fuel ∧ respIsQuota (oracle (idx + j)) = false) →
      ∃ r k, tdRetryGo oracle fuel idx = some (r, k) := by
  intro oracle fuel
  induction fuel with
  | zero =>
    intro idx h
    obtain ⟨j, hj, _⟩ := h
    exact absurd hj (Nat.not_lt_zero j)
  | succ n ih =>
    intro idx h
    obtain ⟨j, hj, hq⟩ := h
    unfold tdRetryGo
    cases h0 : oracle idx with
    | ok vs => exact ⟨Resp.ok vs, idx + 1, rfl⟩
    | error msg =>
      dsimp only
      by_cases hm : isQuotaMsg msg = true
      · rw [if_pos hm]
        cases j with
        | zero =>
          rw [Nat.add_zero, h0] at hq
          simp [respIsQuota, hm] at hq
        | succ j2 =>
          refine ih (idx + 1) ⟨j2, ?_, ?_⟩
          · omega
          · have harr : idx + 1 + j2 = idx + (j2 + 1) := by omega
            rw [harr]
            exact hq
      · rw [if_neg hm]
        exact ⟨Resp.error msg, idx + 1, rfl⟩

/-- C9 witness: one quota error followed by a successful page. -/
theorem C9_witness : ∃ r k, tdRetryGo c9WOracle 2 0 = some (r, k) :=
  C9_retry_exits_on_first_non_quota c9WOracle 2 0 ⟨1, by decide, by decide⟩

/-- C10: the claim says N+1 back-to-back acquisitions against a ceiling of N
per window W put at least W of wall-clock time between the Nth and (N+1)th
upstream calls.  Counterexample: with ceiling 2, window 60 and the source's
+2 sleep padding, the 2nd call is issued at t = 62 and the 3rd immediately
after at t = 62 — the gap between the Nth and (N+1)th calls is 0, not ≥ 60;
the block happens before the Nth call instead. -/
theorem C10_counterexample :
    callTime 2 60 2 2 = 62 ∧ callTime 2 60 2 3 = 62 ∧
    callTime 2 60 2 3 - callTime 2 60 2 2 = 0 ∧ (0 : Nat) < 60 := by
  refine ⟨rfl, rfl, rfl, by decide⟩

/-- C10 (amended): the counter is incremented before the ceiling check with
`>=`, so the limiter blocks before issuing the call that reaches the ceiling:
at least W elapses between the (N-1)th and the Nth calls, the window is
restarted with the counter reset to zero, and the (N+1)th call is then issued
immediately at the same instant as the Nth. -/
theorem C10_block_before_nth_call :
    ∀ (N W pad : Nat), 2 ≤ N → 1 ≤ W →
      W ≤ callTime N W pad N - callTime N W pad (N - 1) ∧
      rlRun N W pad N = ⟨0, W + pad, W + pad⟩ ∧
      callTime N W pad (N + 1) = callTime N W pad N := by
  intro N W pad hN hW
  have hN1 : N - 1 < N := by omega
  have h1 : rlRun N W pad (N - 1) = ⟨N - 1, 0, 0⟩ := rlRun_lt N W pad (N - 1) hN1
  have hNsucc : N - 1 + 1 = N := by omega
  have h2 : rlRun N W pad N = ⟨0, W + pad, W + pad⟩ := by
    have hstep : rlRun N W pad (N - 1 + 1) = rlAcquire N W pad (rlRun N W pad (N - 1)) := rfl
    rw [hNsucc] at hstep
    rw [hstep, h1]
    unfold rlAcquire
    have hc : N ≤ N - 1 + 1 := by omega
    have h0W : (0 : Nat) - 0 < W := by omega
    simp [hc, h0W]
    omega
  have h3 : rlRun N W pad (N + 1) = ⟨1, W + pad, W + pad⟩ := by
    show rlAcquire N W pad (rlRun N W pad N) = _
    rw [h2]
    unfold rlAcquire
    have hnot : ¬ N ≤ 0 + 1 := by omega
    simp [hnot]
  refine ⟨?_, h2, ?_⟩
  · unfold callTime
    rw [h1, h2]
    show W ≤ W + pad - 0
    omega
  · unfold callTime
    rw [h2, h3]

/-- C10 witness: ceiling 2, window 60, padding 2. -/
theorem C10_witness :
    (60 : Nat) ≤ callTime 2 60 2 2 - callTime 2 60 2 1 ∧
    rlRun 2 60 2 2 = ⟨0, 62, 62⟩ ∧
    callTime 2 60 2 3 = callTime 2 60 2 2 :=
  C10_block_before_nth_call 2 60 2 (by decide) (by decide)

end Tachion
